import Mathlib

/-!
Verification of the core data pipeline of `src/app.py`.

The pipeline works on pandas dataframes of IEEE-754 doubles.  The embedding
models a float as `FVal`: either NaN, +inf, -inf, or an exact rational value.
All inputs appearing in this development are decimal literals from a CSV, so
exact rationals are a faithful carrier; the arithmetic operations `fadd`,
`fsub`, `fmul`, `fdiv` implement the IEEE special-value rules (NaN propagates,
x/0 with x > 0 is +inf, 0/0 is NaN, comparisons with NaN are false).
`fsqrt` models `np.sqrt` (NaN below 0) via `Rat.sqrt`, which is exact on
perfect squares; every concrete input evaluated in this file is a perfect
square, and no general theorem depends on the value of a square root of a
non-square.

A dataframe is a `List` of row structures; each enrichment function of the
source maps to a function on such lists.
-/

inductive FVal where
  | nan : FVal
  | inf : FVal
  | ninf : FVal
  | val : ℚ → FVal
deriving DecidableEq, Repr

def FVal.isNan : FVal → Bool
  | .nan => true
  | _ => false

/-- IEEE negation (used to define subtraction). -/
def fneg : FVal → FVal
  | .nan => .nan
  | .inf => .ninf
  | .ninf => .inf
  | .val q => .val (-q)

/-- IEEE addition on the float model. -/
def fadd : FVal → FVal → FVal
  | .nan, _ => .nan
  | _, .nan => .nan
  | .inf, .ninf => .nan
  | .ninf, .inf => .nan
  | .inf, _ => .inf
  | _, .inf => .inf
  | .ninf, _ => .ninf
  | _, .ninf => .ninf
  | .val a, .val b => .val (a + b)

/-- IEEE subtraction on the float model. -/
def fsub (a b : FVal) : FVal := fadd a (fneg b)

/-- IEEE multiplication on the float model. -/
def fmul : FVal → FVal → FVal
  | .nan, _ => .nan
  | _, .nan => .nan
  | .inf, .inf => .inf
  | .inf, .ninf => .ninf
  | .ninf, .inf => .ninf
  | .ninf, .ninf => .inf
  | .inf, .val q => if 0 < q then .inf else if q < 0 then .ninf else .nan
  | .val q, .inf => if 0 < q then .inf else if q < 0 then .ninf else .nan
  | .ninf, .val q => if 0 < q then .ninf else if q < 0 then .inf else .nan
  | .val q, .ninf => if 0 < q then .ninf else if q < 0 then .inf else .nan
  | .val a, .val b => .val (a * b)

/-- IEEE division on the float model (division by literal 0 is by +0). -/
def fdiv : FVal → FVal → FVal
  | .nan, _ => .nan
  | _, .nan => .nan
  | .inf, .inf => .nan
  | .inf, .ninf => .nan
  | .ninf, .inf => .nan
  | .ninf, .ninf => .nan
  | .inf, .val q => if q < 0 then .ninf else .inf
  | .ninf, .val q => if q < 0 then .inf else .ninf
  | .val _, .inf => .val 0
  | .val _, .ninf => .val 0
  | .val a, .val b =>
      if b = 0 then (if a = 0 then .nan else if 0 < a then .inf else .ninf)
      else .val (a / b)

/-- `np.sqrt` on the float model: NaN on NaN and on negatives, +inf on +inf;
on a nonnegative rational it is `Rat.sqrt`, which is exact whenever the
argument is a perfect square (true of every concrete argument in this file). -/
def fsqrt : FVal → FVal
  | .nan => .nan
  | .inf => .inf
  | .ninf => .nan
  | .val q => if q < 0 then .nan else .val (Rat.sqrt q)

/-- IEEE strict less-than: any comparison involving NaN is false. -/
def flt : FVal → FVal → Bool
  | .nan, _ => false
  | _, .nan => false
  | .inf, _ => false
  | .ninf, .ninf => false
  | .ninf, _ => true
  | .val _, .inf => true
  | .val _, .ninf => false
  | .val a, .val b => decide (a < b)

/-- `get_movement_type` of `src/app.py` (lines 22-30): the strict upper-bound
ladder over the float speed, with thresholds 0.05, 0.3, 1. -/
def get_movement_type (speed : FVal) : String :=
  if flt speed (.val 0.05) then "Standing Still"
  else if flt speed (.val 0.3) then "Walking"
  else if flt speed (.val 1) then "Running"
  else "Driving"

/-- One row of the input dataframe after `Time` parsing: `time` is the parsed
timestamp in seconds (parsing with a fixed format either succeeds or raises,
so the column has no missing values), the remaining columns are floats.
Structure defaults are only a literal-writing convenience. -/
structure Row where
  time : ℚ := 0
  latitude : FVal := .nan
  longitude : FVal := .nan
  happy : FVal := .nan
  excited : FVal := .nan
  calm : FVal := .nan
  relaxed : FVal := .nan
  proud : FVal := .nan
  irritable : FVal := .nan
  anxious : FVal := .nan
  sad : FVal := .nan
  bored : FVal := .nan
  lonely : FVal := .nan
  pm25 : FVal := .nan
  pm10 : FVal := .nan
deriving DecidableEq, Repr

/-- The positive-affect item columns selected on line 33 of `src/app.py`. -/
def positiveItems (r : Row) : List FVal :=
  [r.happy, r.excited, r.calm, r.relaxed, r.proud]

/-- The negative-affect item columns selected on line 34 of `src/app.py`. -/
def negativeItems (r : Row) : List FVal :=
  [r.irritable, r.anxious, r.sad, r.bored, r.lonely]

/-- pandas `DataFrame.mean(axis=1)` with the default `skipna=True`: drop the
NaN entries, then divide the float sum of the rest by their count; all-NaN
rows give NaN. -/
def pandasMean (xs : List FVal) : FVal :=
  let vs := xs.filter (fun v => !v.isNan)
  if vs.length = 0 then .nan
  else fdiv (vs.foldl fadd (.val 0)) (.val (vs.length : ℚ))

/-- A row extended by the two composite mood columns of
`calculate_mood_metrics`. -/
structure RowM extends Row where
  positiveMood : FVal := .nan
  negativeMood : FVal := .nan
deriving DecidableEq, Repr

/-- Per-row action of `calculate_mood_metrics` (lines 32-35): add
`PositiveMood` and `NegativeMood` as row-wise means of the item columns. -/
def moodRow (r : Row) : RowM :=
  { toRow := r
    positiveMood := pandasMean (positiveItems r)
    negativeMood := pandasMean (negativeItems r) }

/-- `calculate_mood_metrics` of `src/app.py` (lines 32-35). -/
def calculate_mood_metrics (df : List Row) : List RowM := df.map moodRow

/-- A row further extended by the `speed` and `movement_type` columns of
`calculate_movement_speed`. -/
structure RowMS extends RowM where
  speed : FVal := .nan
  movement_type : String := ""
deriving DecidableEq, Repr

/-- The speed formula of line 38 for a row with a predecessor:
`sqrt(lat.diff()**2 + lon.diff()**2) / Time.diff().total_seconds()`. -/
def speedOf (p r : RowM) : FVal :=
  fdiv (fsqrt (fadd (fmul (fsub r.latitude p.latitude) (fsub r.latitude p.latitude))
                    (fmul (fsub r.longitude p.longitude) (fsub r.longitude p.longitude))))
       (.val (r.time - p.time))

/-- The tail of the `speed` column: each row paired with its predecessor in
dataframe row order. -/
def speedsGo (p : RowM) : List RowM → List FVal
  | [] => []
  | r :: rest => speedOf p r :: speedsGo r rest

/-- The `speed` column of line 38. `diff()` on the first row yields NaN in
every operand, and the formula maps NaN operands to a NaN speed, so the head
of the column is NaN. -/
def speedsCol : List RowM → List FVal
  | [] => []
  | r :: rest => .nan :: speedsGo r rest

/-- A row extended by its computed speed and, per line 39, its
`movement_type := get_movement_type speed`. -/
def speedRow (r : RowM) (s : FVal) : RowMS :=
  { toRowM := r, speed := s, movement_type := get_movement_type s }

/-- `calculate_movement_speed` of `src/app.py` (lines 37-40). -/
def calculate_movement_speed (df : List RowM) : List RowMS :=
  List.zipWith speedRow df (speedsCol df)

/-- `df['Time'].dt.date`: the calendar date of a timestamp, as a day number
(days since the epoch; the epoch day 1970-01-01 was a Thursday). -/
def dateOf (t : ℚ) : ℤ := ⌊t / 86400⌋

/-- The week membership test of `calculate_weekly_stats` (lines 43-44):
`end_date = start_date + 6 days` and the mask keeps rows whose date `d`
satisfies `start_date <= d` and `d <= end_date`.  At timestamp level this is
exactly the half-open interval `[start_date, start_date + 7 days)`. -/
def week_mask (start_date : ℤ) (r : RowMS) : Bool :=
  decide (start_date ≤ dateOf r.time) && decide (dateOf r.time ≤ start_date + 6)

/-- The Pearson coefficient as `scipy.stats.pearsonr` reports it, represented
exactly: the float `sign * sqrt(rSq)` is `coeff sign rSq` (with `sign` the
sign of the covariance and `rSq` the square of the coefficient, a rational),
and a NaN result is `nan`.  The p-value is not modelled; no claim in this
development depends on it. -/
inductive Corr where
  | nan : Corr
  | coeff : ℤ → ℚ → Corr
deriving DecidableEq, Repr

/-- The rational payload of a float, `none` for NaN and the infinities. -/
def toQ : FVal → Option ℚ
  | .val q => some q
  | _ => none

/-- Pearson product-moment computation on finite numeric series: with
`sxy = Σ dx*dy`, `sxx = Σ dx²`, `syy = Σ dy²`, the coefficient is
`sxy / sqrt(sxx*syy)`, i.e. sign `sign sxy` and square `sxy²/(sxx*syy)`;
a constant series (`sxx = 0` or `syy = 0`) gives NaN (scipy emits a
`ConstantInputWarning` and returns NaN). -/
def pearsonKernel (xs ys : List ℚ) : Corr :=
  let xbar := xs.sum / (xs.length : ℚ)
  let ybar := ys.sum / (ys.length : ℚ)
  let sxx := (xs.map (fun x => (x - xbar) * (x - xbar))).sum
  let syy := (ys.map (fun y => (y - ybar) * (y - ybar))).sum
  let sxy := (List.zipWith (fun x y => (x - xbar) * (y - ybar)) xs ys).sum
  if sxx = 0 ∨ syy = 0 then Corr.nan
  else Corr.coeff (if 0 < sxy then 1 else if sxy < 0 then -1 else 0) (sxy * sxy / (sxx * syy))

/-- `scipy.stats.pearsonr` as called on line 50: raises `ValueError` when the
series are shorter than 2 (modelled as `Except.error` with scipy's message);
any NaN (or infinite) entry propagates through the float arithmetic to a NaN
coefficient; otherwise the Pearson formula applies. -/
def pearsonr (xs ys : List FVal) : Except String Corr :=
  if xs.length ≠ ys.length then .error "x and y must have the same length."
  else if xs.length < 2 then .error "x and y must have length at least 2."
  else if (xs ++ ys).any (fun v => !(toQ v).isSome) then .ok Corr.nan
  else .ok (pearsonKernel (xs.filterMap toQ) (ys.filterMap toQ))

/-- `calculate_weekly_stats` of `src/app.py` (lines 42-53): filter the week,
then run `pearsonr` for each (pollutant, mood) pair, in the loop order of
lines 48-49; an exception raised by `pearsonr` propagates out. -/
def calculate_weekly_stats (df : List RowMS) (start_date : ℤ) :
    Except String (List (String × Corr) × List RowMS) := do
  let week_df := df.filter (week_mask start_date)
  let c1 ← pearsonr (week_df.map (fun r => r.pm25)) (week_df.map (fun r => r.positiveMood))
  let c2 ← pearsonr (week_df.map (fun r => r.pm25)) (week_df.map (fun r => r.negativeMood))
  let c3 ← pearsonr (week_df.map (fun r => r.pm10)) (week_df.map (fun r => r.positiveMood))
  let c4 ← pearsonr (week_df.map (fun r => r.pm10)) (week_df.map (fun r => r.negativeMood))
  return ([("PM2.5_mean_PositiveMood", c1), ("PM2.5_mean_NegativeMood", c2),
           ("PM10_mean_PositiveMood", c3), ("PM10_mean_NegativeMood", c4)], week_df)

/-- The correlation stored for pair number `i` (in the loop order of lines
48-49), or `none` when the computation raised. -/
def corrAt (res : Except String (List (String × Corr) × List RowMS)) (i : ℕ) : Option Corr :=
  match res with
  | .error _ => none
  | .ok (cs, _) => (cs[i]?).map (fun p => p.2)

/-- `pd.date_range(start=min, end=max, freq='W-MON')` of lines 171-175, at day
granularity: the Mondays `m` with `lo <= m <= hi`.  With the epoch day
(1970-01-01) a Thursday, a day number `d` is a Monday iff `d % 7 = 4`
(day 4 was Monday 1970-01-05). -/
def availableWeeks (lo hi : ℤ) : List ℤ :=
  ((List.range (hi - lo + 1).toNat).map (fun (i : ℕ) => lo + (i : ℤ))).filter
    (fun d => decide (d % 7 = 4))

/-- Modelled from the spec: the pairwise-complete-cases policy of section 4.4
("pairs observations by index after dropping any index where either value is
missing").  This is the behaviour the claim C6 attributes to the code; it is
compared against what `calculate_weekly_stats` actually does. -/
def dropPairwise (xs ys : List FVal) : List (ℚ × ℚ) :=
  (List.zip xs ys).filterMap (fun p =>
    match toQ p.1, toQ p.2 with
    | some a, some b => some (a, b)
    | _, _ => none)

/-- Modelled from the spec: `correlate` under the pairwise-complete-cases
policy — drop the incomplete pairs, then run the same Pearson computation on
the remaining pairs. -/
def pearsonrPairwise (xs ys : List FVal) : Except String Corr :=
  pearsonr ((dropPairwise xs ys).map (fun p => FVal.val p.1))
           ((dropPairwise xs ys).map (fun p => FVal.val p.2))

/-- Modelled from the spec: a stable sort of the dataframe by the `Time`
column (insertion sort), the sort the spec requires before differencing. -/
def insertByTime (r : RowM) : List RowM → List RowM
  | [] => [r]
  | x :: xs => if r.time ≤ x.time then r :: x :: xs else x :: insertByTime r xs

/-- Modelled from the spec: sort a dataframe by timestamp. -/
def sortByTime : List RowM → List RowM
  | [] => []
  | r :: rest => insertByTime r (sortByTime rest)

/-- C3: `get_movement_type` is total on non-negative speeds and implements
the "fine" profile as a strict upper-bound ladder: `0 <= s < 0.05` gives
"Standing Still", `0.05 <= s < 0.3` gives "Walking", `0.3 <= s < 1` gives
"Running", and `1 <= s` gives "Driving"; since the function is a chain of
mutually exclusive conditionals, every non-negative speed receives exactly
one label, and a speed equal to a bound falls into the next bracket. -/
theorem movement_ladder (q : ℚ) :
    (0 ≤ q ∧ q < 0.05 → get_movement_type (FVal.val q) = "Standing Still") ∧
    (0.05 ≤ q ∧ q < 0.3 → get_movement_type (FVal.val q) = "Walking") ∧
    (0.3 ≤ q ∧ q < 1 → get_movement_type (FVal.val q) = "Running") ∧
    (1 ≤ q → get_movement_type (FVal.val q) = "Driving") := by
  refine ⟨fun h => ?_, fun h => ?_, fun h => ?_, fun h => ?_⟩ <;>
      simp only [get_movement_type, flt, decide_eq_true_eq]
  · obtain ⟨h0, h1⟩ := h
    split_ifs with a b c <;> first | rfl | linarith
  · obtain ⟨h0, h1⟩ := h
    split_ifs with a b c <;> first | rfl | linarith
  · obtain ⟨h0, h1⟩ := h
    split_ifs with a b c <;> first | rfl | linarith
  · split_ifs with a b c <;> first | rfl | linarith

/-- Witness for C3: the ladder evaluated at 0 and at each boundary speed;
each boundary value falls into the bracket above it. -/
theorem movement_ladder_witness :
    get_movement_type (FVal.val 0) = "Standing Still" ∧
    get_movement_type (FVal.val 0.05) = "Walking" ∧
    get_movement_type (FVal.val 0.3) = "Running" ∧
    get_movement_type (FVal.val 1) = "Driving" :=
  ⟨(movement_ladder 0).1 ⟨le_refl 0, by norm_num⟩,
   (movement_ladder 0.05).2.1 ⟨le_refl _, by norm_num⟩,
   (movement_ladder 0.3).2.2.1 ⟨le_refl _, by norm_num⟩,
   (movement_ladder 1).2.2.2 (le_refl 1)⟩

/-- C9: on a NaN speed (as the first sample of a series receives) every
strict-less-than comparison in `get_movement_type` is false, so the chain
falls through to the catch-all branch and returns "Driving". -/
theorem nan_speed_driving : get_movement_type FVal.nan = "Driving" := rfl

/-- Two samples taken at the same instant (`time` both 0), 3 degrees of
latitude and 4 of longitude apart. -/
def rowP0 : RowM := { time := 0, latitude := .val 0, longitude := .val 0 }

/-- Second sample for the zero-elapsed-time input. -/
def rowP1 : RowM := { time := 0, latitude := .val 3, longitude := .val 4 }

/-- C2 fails on the code (code bug): with zero elapsed time between
consecutive samples, line 38 divides by zero.  With the samples 5 degrees
apart the speed is +inf, and with coincident samples it is NaN (0/0) — in
neither case the 0 required by the spec. -/
theorem zero_elapsed_speed_eval :
    (calculate_movement_speed [rowP0, rowP1]).map (fun r => r.speed)
      = [FVal.nan, FVal.inf] ∧
    (calculate_movement_speed [rowP0, rowP0]).map (fun r => r.speed)
      = [FVal.nan, FVal.nan] := by
  constructor <;>
    norm_num [calculate_movement_speed, speedsCol, speedsGo, speedOf, speedRow,
      rowP0, rowP1, fsub, fadd, fneg, fmul, fdiv, fsqrt, Nat.sqrt]

/-- A single-sample series (no predecessor exists). -/
def rowP3 : RowM := { time := 0, latitude := .val 1, longitude := .val 1 }

/-- C4 fails on the code (code bug): the first sample of a series gets speed
NaN (every `diff()` operand is NaN) and is classified "Driving" by the NaN
fall-through of `get_movement_type` — not speed 0 / "Standing Still" as the
spec policy requires. -/
theorem first_sample_eval :
    (calculate_movement_speed [rowP3]).map (fun r => r.speed) = [FVal.nan] ∧
    (calculate_movement_speed [rowP3]).map (fun r => r.movement_type) = ["Driving"] := by
  constructor <;>
    norm_num [calculate_movement_speed, speedsCol, speedsGo, speedRow, rowP3,
      get_movement_type, flt]

/-- A week containing a single record. -/
def rowW1 : RowMS :=
  { time := 0, pm25 := .val 1, pm10 := .val 1, positiveMood := .val 1, negativeMood := .val 1 }

/-- First record of a two-record week whose PM2.5 column is constant. -/
def rowB1 : RowMS :=
  { time := 0, pm25 := .val 1, pm10 := .val 1, positiveMood := .val 1, negativeMood := .val 1 }

/-- Second record of the constant-PM2.5 week. -/
def rowB2 : RowMS :=
  { time := 3600, pm25 := .val 1, pm10 := .val 2, positiveMood := .val 2, negativeMood := .val 2 }

/-- C1 fails on the code (code bug): `calculate_weekly_stats` hands the raw
series to `scipy.stats.pearsonr` with no degenerate-case handling.  On a week
with one record it raises (fewer than 2 observations); on a week whose PM2.5
series is constant it stores a NaN coefficient.  There is no distinct
"insufficient data" outcome. -/
theorem correlation_degenerate_eval :
    calculate_weekly_stats [rowW1] 0 = Except.error "x and y must have length at least 2." ∧
    corrAt (calculate_weekly_stats [rowB1, rowB2] 0) 0 = some Corr.nan := by
  have h0 : dateOf 0 = 0 := by norm_num [dateOf]
  have h1 : dateOf 3600 = 0 := by norm_num [dateOf]
  constructor <;>
    norm_num [calculate_weekly_stats, week_mask, h0, h1, pearsonr, pearsonKernel,
      toQ, corrAt, rowW1, rowB1, rowB2, Except.bind, bind, List.filter,
      List.filterMap_cons, List.zipWith, pure, Except.pure]

/-- First record of the week used for the pairwise-deletion check. -/
def rowC1 : RowMS :=
  { time := 0, pm25 := .val 1, pm10 := .val 1, positiveMood := .val 1, negativeMood := .val 1 }

/-- Second record of that week. -/
def rowC2 : RowMS :=
  { time := 0, pm25 := .val 2, pm10 := .val 2, positiveMood := .val 3, negativeMood := .val 2 }

/-- Third record of that week: PM2.5 is missing while both moods are present. -/
def rowC3 : RowMS :=
  { time := 0, pm25 := .nan, pm10 := .val 4, positiveMood := .val 7, negativeMood := .val 3 }

/-- C6 fails on the code (code bug): on a week with PM2.5 series
[1, 2, NaN] and PositiveMood series [1, 3, 7], the code computes the
(PM2.5, PositiveMood) coefficient over the raw series, so the NaN propagates
and the stored coefficient is NaN; dropping the incomplete pair first — the
behaviour the claim describes — yields the defined coefficient +1 over the
2 remaining pairs. -/
theorem pairwise_drop_eval :
    corrAt (calculate_weekly_stats [rowC1, rowC2, rowC3] 0) 0 = some Corr.nan ∧
    pearsonrPairwise [FVal.val 1, FVal.val 2, FVal.nan] [FVal.val 1, FVal.val 3, FVal.val 7]
      = Except.ok (Corr.coeff 1 1) := by
  have h0 : dateOf 0 = 0 := by norm_num [dateOf]
  constructor <;>
    norm_num [calculate_weekly_stats, week_mask, h0, pearsonr, pearsonKernel,
      toQ, corrAt, rowC1, rowC2, rowC3, pearsonrPairwise, dropPairwise,
      Except.bind, bind, List.filter, List.filterMap_cons, List.zipWith, pure,
      Except.pure, List.zip]

/-- Membership in the W-MON date range: exactly the Mondays between the
observed minimum and maximum dates. -/
lemma mem_availableWeeks (lo hi w : ℤ) :
    w ∈ availableWeeks lo hi ↔ lo ≤ w ∧ w ≤ hi ∧ w % 7 = 4 := by
  rw [availableWeeks, List.mem_filter, List.mem_map]
  simp only [List.mem_range, decide_eq_true_eq]
  constructor
  · rintro ⟨⟨i, hi2, rfl⟩, h7⟩
    omega
  · rintro ⟨ha, hb, hc⟩
    exact ⟨⟨(w - lo).toNat, by omega, by omega⟩, hc⟩

/-- A record dated day 1 (1970-01-02, a Friday — before the first Monday). -/
def rowD1 : RowMS := { time := 86400 }

/-- A record dated day 11 (1970-01-12, a Monday). -/
def rowD11 : RowMS := { time := 950400 }

/-- C8 fails as stated: with observed records dated day 1 and day 11 (so the
observed date range is [1, 11]), `pd.date_range(freq='W-MON')` offers only
the Mondays 4 and 11, and the record dated day 1 — before the first Monday —
satisfies the week mask of no offered window.  The windows therefore do not
partition the observed records. -/
theorem weekly_partition_counterexample :
    availableWeeks 1 11 = [4, 11] ∧
    dateOf rowD1.time = 1 ∧ dateOf rowD11.time = 11 ∧
    (availableWeeks 1 11).all (fun w => !week_mask w rowD1) = true := by
  have hW : availableWeeks 1 11 = [4, 11] := by decide
  have h1 : dateOf rowD1.time = 1 := by norm_num [dateOf, rowD1]
  have h11 : dateOf rowD11.time = 11 := by norm_num [dateOf, rowD11]
  refine ⟨hW, h1, h11, ?_⟩
  simp [hW, week_mask, h1]

/-- C8 amended: restricted to records dated on or after the first Monday of
the observed range, the Monday-anchored week windows are a partition: such a
record satisfies the week mask of exactly one window offered by the W-MON
date range (each window being the 7-day half-open interval
[monday, monday + 7) at date granularity, so consecutive windows are
contiguous and never overlap). -/
theorem weekly_partition_amended (lo hi : ℤ) (r : RowMS)
    (h1 : lo ≤ dateOf r.time) (h2 : dateOf r.time ≤ hi)
    (h3 : ∃ m, lo ≤ m ∧ m ≤ dateOf r.time ∧ m % 7 = 4) :
    ∃! w, w ∈ availableWeeks lo hi ∧ week_mask w r = true := by
  obtain ⟨m, hm1, hm2, hm3⟩ := h3
  refine ⟨dateOf r.time - (dateOf r.time - 4) % 7, ⟨?_, ?_⟩, ?_⟩
  · rw [mem_availableWeeks]
    omega
  · simp only [week_mask, Bool.and_eq_true, decide_eq_true_eq]
    omega
  · rintro y ⟨hy1, hy2⟩
    rw [mem_availableWeeks] at hy1
    simp only [week_mask, Bool.and_eq_true, decide_eq_true_eq] at hy2
    omega

/-- A record dated day 5 (after the first Monday, day 4, of the range). -/
def rowD5 : RowMS := { time := 432000 }

/-- Witness for the amended C8: in the observed range [1, 11] the record
dated day 5 falls in exactly one offered window (the week of Monday day 4). -/
theorem weekly_partition_amended_witness :
    ∃! w, w ∈ availableWeeks 1 11 ∧ week_mask w rowD5 = true :=
  weekly_partition_amended 1 11 rowD5
    (by norm_num [dateOf, rowD5]) (by norm_num [dateOf, rowD5])
    ⟨4, by norm_num [dateOf, rowD5]⟩

lemma speedsGo_length (p : RowM) (l : List RowM) : (speedsGo p l).length = l.length := by
  induction l generalizing p with
  | nil => rfl
  | cons r rest ih => simp [speedsGo, ih]

lemma speedsCol_length (l : List RowM) : (speedsCol l).length = l.length := by
  cases l with
  | nil => rfl
  | cons r rest => simp [speedsCol, speedsGo_length]

lemma zipWith_speedRow_toRowM (l : List RowM) :
    ∀ ss : List FVal, l.length = ss.length →
      (List.zipWith speedRow l ss).map (fun r => r.toRowM) = l := by
  induction l with
  | nil => intro ss h; rfl
  | cons r rest ih =>
    intro ss h
    cases ss with
    | nil => simp at h
    | cons s ss2 =>
      simp only [List.zipWith_cons_cons, List.map_cons]
      rw [ih ss2 (by simpa using h)]
      rfl

/-- C10: the enrichment steps only add columns.  `calculate_mood_metrics`
adds exactly `PositiveMood` and `NegativeMood` (the `RowM` extension of
`Row`) and `calculate_movement_speed` adds exactly `speed` and
`movement_type` (the `RowMS` extension of `RowM`); projecting the added
columns away returns the input table exactly — same pre-existing values,
same row count, same row order. -/
theorem enrichment_frame (df : List Row) (dfm : List RowM) :
    (calculate_mood_metrics df).map (fun r => r.toRow) = df ∧
    (calculate_movement_speed dfm).map (fun r => r.toRowM) = dfm := by
  constructor
  · show (df.map moodRow).map (fun r => r.toRow) = df
    rw [List.map_map]
    exact List.map_id df
  · exact zipWith_speedRow_toRowM dfm (speedsCol dfm) (speedsCol_length dfm).symm

/-- A sample taken at t = 10 s at the origin; in the input table it precedes
an earlier-timestamped sample. -/
def rowS1 : RowM := { time := 10, latitude := .val 0, longitude := .val 0 }

/-- A sample taken at t = 0 s, 5 degrees away from the origin. -/
def rowS2 : RowM := { time := 0, latitude := .val 3, longitude := .val 4 }

/-- C7 fails as stated: `main` never sorts by timestamp before
`calculate_movement_speed`, so differencing runs in input row order.  On the
out-of-order table [rowS1 (t=10), rowS2 (t=0)] the code assigns speeds
[NaN, -1/2] — a negative speed, impossible under timestamp-sorted
differencing, where rowS1 would get 5/10 = 1/2 and rowS2 (first) NaN — and
the pipeline output differs from the output on the time-sorted table. -/
theorem speed_sort_counterexample :
    sortByTime [rowS1, rowS2] = [rowS2, rowS1] ∧
    (calculate_movement_speed [rowS1, rowS2]).map (fun r => r.speed)
      = [FVal.nan, FVal.val (-(1/2))] ∧
    calculate_movement_speed [rowS1, rowS2]
      ≠ calculate_movement_speed (sortByTime [rowS1, rowS2]) := by
  have h1 : sortByTime [rowS1, rowS2] = [rowS2, rowS1] := by
    norm_num [sortByTime, insertByTime, rowS1, rowS2]
  have h2 : (calculate_movement_speed [rowS1, rowS2]).map (fun r => r.speed)
      = [FVal.nan, FVal.val (-(1/2))] := by
    norm_num [calculate_movement_speed, speedsCol, speedsGo, speedOf, speedRow,
      rowS1, rowS2, fsub, fadd, fneg, fmul, fdiv, fsqrt, Nat.sqrt]
  have h3 : (calculate_movement_speed [rowS2, rowS1]).map (fun r => r.speed)
      = [FVal.nan, FVal.val (1/2)] := by
    norm_num [calculate_movement_speed, speedsCol, speedsGo, speedOf, speedRow,
      rowS1, rowS2, fsub, fadd, fneg, fmul, fdiv, fsqrt, Nat.sqrt]
  refine ⟨h1, h2, ?_⟩
  rw [h1]
  intro hEq
  have hm := congrArg (List.map (fun r => r.speed)) hEq
  rw [h2, h3] at hm
  norm_num at hm

lemma map_speed_zipWith (l : List RowM) :
    ∀ ss : List FVal, l.length = ss.length →
      (List.zipWith speedRow l ss).map (fun r => r.speed) = ss := by
  induction l with
  | nil =>
    intro ss h
    cases ss with
    | nil => rfl
    | cons s ss2 => simp at h
  | cons r rest ih =>
    intro ss h
    cases ss with
    | nil => simp at h
    | cons s ss2 =>
      simp only [List.zipWith_cons_cons, List.map_cons]
      rw [ih ss2 (by simpa using h)]
      rfl

lemma speedsGo_getElem (l : List RowM) :
    ∀ (p : RowM) (j : ℕ) (hj : j < l.length),
      (speedsGo p l)[j]? = some (speedOf ((p :: l).get ⟨j, by simp; omega⟩) (l.get ⟨j, hj⟩)) := by
  induction l with
  | nil => intro p j hj; simp at hj
  | cons x xs ih =>
    intro p j hj
    cases j with
    | zero => simp [speedsGo]
    | succ k =>
      have hk : k < xs.length := by simpa using hj
      simp only [speedsGo, List.getElem?_cons_succ]
      rw [ih x k hk]
      rfl

/-- C7 amended: derived speed for each sample equals the planar Euclidean
distance in raw degree-space to the immediately preceding row of the input
table (not of a timestamp-sorted table — the pipeline performs no sort),
divided by the elapsed seconds between those rows, and the first row's speed
is NaN. -/
theorem speed_input_order (df : List RowM) (i : ℕ) (hi : i + 1 < df.length) :
    ((calculate_movement_speed df).map (fun r => r.speed))[i + 1]?
      = some (speedOf df[i] df[i + 1]) ∧
    ((calculate_movement_speed df).map (fun r => r.speed))[0]? = some FVal.nan := by
  have hcol : (calculate_movement_speed df).map (fun r => r.speed) = speedsCol df :=
    map_speed_zipWith df (speedsCol df) (speedsCol_length df).symm
  rw [hcol]
  match df, hi with
  | r :: rest, hi =>
    have hi2 : i < rest.length := by simpa using hi
    constructor
    · simp only [speedsCol, List.getElem?_cons_succ]
      rw [speedsGo_getElem rest r i hi2]
      rfl
    · simp [speedsCol]

/-- Witness for the amended C7: on the two-row table [rowS1, rowS2] the
second row's speed is exactly `speedOf rowS1 rowS2` (input-order
predecessor) and the first row's speed is NaN. -/
theorem speed_input_order_witness :
    ((calculate_movement_speed [rowS1, rowS2]).map (fun r => r.speed))[1]?
      = some (speedOf rowS1 rowS2) ∧
    ((calculate_movement_speed [rowS1, rowS2]).map (fun r => r.speed))[0]?
      = some FVal.nan :=
  speed_input_order [rowS1, rowS2] 0 (by norm_num)

/-- A float that is an ordinary number or NaN (missing) — the only shapes a
parsed bounded-scale mood item can take. -/
def numOrMissing : FVal → Bool
  | .inf => false
  | .ninf => false
  | _ => true

lemma isNan_nan : FVal.nan.isNan = true := rfl

lemma isNan_val (q : ℚ) : (FVal.val q).isNan = false := rfl

lemma toQ_nan : toQ FVal.nan = none := rfl

lemma toQ_val (q : ℚ) : toQ (FVal.val q) = some q := rfl

lemma filter_eq_filterMap (xs : List FVal) (h : ∀ v ∈ xs, numOrMissing v = true) :
    xs.filter (fun v => !v.isNan) = (xs.filterMap toQ).map FVal.val := by
  induction xs with
  | nil => rfl
  | cons x rest ih =>
    have hx : numOrMissing x = true := h x (List.mem_cons_self x rest)
    have hr := ih (fun v hv => h v (List.mem_cons_of_mem x hv))
    cases x with
    | nan => simp [List.filter_cons, List.filterMap_cons, isNan_nan, toQ_nan, hr]
    | inf => simp [numOrMissing] at hx
    | ninf => simp [numOrMissing] at hx
    | val q => simp [List.filter_cons, List.filterMap_cons, isNan_val, toQ_val, hr]

lemma foldl_fadd_val (qs : List ℚ) :
    ∀ a : ℚ, (qs.map FVal.val).foldl fadd (FVal.val a) = FVal.val (a + qs.sum) := by
  induction qs with
  | nil => intro a; simp
  | cons x rest ih =>
    intro a
    simp only [List.map_cons, List.foldl_cons]
    rw [show fadd (FVal.val a) (FVal.val x) = FVal.val (a + x) from rfl, ih (a + x),
      List.sum_cons]
    congr 1
    ring

lemma pandasMean_val (xs : List FVal) (h : ∀ v ∈ xs, numOrMissing v = true)
    (hne : xs.filterMap toQ ≠ []) :
    pandasMean xs
      = FVal.val ((xs.filterMap toQ).sum / ((xs.filterMap toQ).length : ℚ)) := by
  have hlen0 : (xs.filterMap toQ).length ≠ 0 := by
    simpa [List.length_eq_zero] using hne
  simp only [pandasMean, filter_eq_filterMap xs h, List.length_map]
  rw [if_neg hlen0, foldl_fadd_val, zero_add]
  simp only [fdiv]
  rw [if_neg (by exact_mod_cast hlen0)]

lemma pandasMean_nan_iff (xs : List FVal) (h : ∀ v ∈ xs, numOrMissing v = true) :
    pandasMean xs = FVal.nan ↔ xs.filterMap toQ = [] := by
  constructor
  · intro hm
    by_contra hne
    rw [pandasMean_val xs h hne] at hm
    exact FVal.noConfusion hm
  · intro hq
    simp [pandasMean, filter_eq_filterMap xs h, hq]

lemma filterMap_toQ_eq_nil (xs : List FVal) (h : ∀ v ∈ xs, numOrMissing v = true) :
    xs.filterMap toQ = [] ↔ ∀ v ∈ xs, v = FVal.nan := by
  rw [List.filterMap_eq_nil_iff]
  constructor
  · intro hall v hv
    have h1 := hall v hv
    have h2 := h v hv
    cases v <;> simp_all [toQ, numOrMissing]
  · intro hall v hv
    rw [hall v hv]
    rfl

/-- C5: for every mood record (items each a number or missing), the composite
score of an axis is missing (NaN) iff all configured items of that axis are
missing; otherwise it equals the arithmetic mean of exactly the present
items. -/
theorem mood_compose (r : Row)
    (hp : ∀ v ∈ positiveItems r, numOrMissing v = true)
    (hn : ∀ v ∈ negativeItems r, numOrMissing v = true) :
    ((moodRow r).positiveMood = FVal.nan ↔ ∀ v ∈ positiveItems r, v = FVal.nan) ∧
    ((positiveItems r).filterMap toQ ≠ [] →
      (moodRow r).positiveMood
        = FVal.val (((positiveItems r).filterMap toQ).sum
            / (((positiveItems r).filterMap toQ).length : ℚ))) ∧
    ((moodRow r).negativeMood = FVal.nan ↔ ∀ v ∈ negativeItems r, v = FVal.nan) ∧
    ((negativeItems r).filterMap toQ ≠ [] →
      (moodRow r).negativeMood
        = FVal.val (((negativeItems r).filterMap toQ).sum
            / (((negativeItems r).filterMap toQ).length : ℚ))) := by
  refine ⟨?_, ?_, ?_, ?_⟩
  · rw [show (moodRow r).positiveMood = pandasMean (positiveItems r) from rfl,
      pandasMean_nan_iff _ hp, filterMap_toQ_eq_nil _ hp]
  · intro hne
    rw [show (moodRow r).positiveMood = pandasMean (positiveItems r) from rfl,
      pandasMean_val _ hp hne]
  · rw [show (moodRow r).negativeMood = pandasMean (negativeItems r) from rfl,
      pandasMean_nan_iff _ hn, filterMap_toQ_eq_nil _ hn]
  · intro hne
    rw [show (moodRow r).negativeMood = pandasMean (negativeItems r) from rfl,
      pandasMean_val _ hn hne]

/-- A mood record with positive items [4, missing, 2, missing, missing] and
all negative items missing. -/
def rowMood : Row := { happy := .val 4, calm := .val 2 }

/-- Witness for C5: on `rowMood` the positive composite is the mean 3 of the
present items [4, 2] and the negative composite is missing. -/
theorem mood_compose_witness :
    (moodRow rowMood).positiveMood = FVal.val 3 ∧
    (moodRow rowMood).negativeMood = FVal.nan := by
  have h := mood_compose rowMood (by decide) (by decide)
  constructor
  · rw [h.2.1 (by decide)]
    norm_num [positiveItems, rowMood, toQ, List.filterMap_cons]
  · exact h.2.2.1.mpr (by decide)
